import Mathlib

/-!
Verification development for the panel-connection stiffness kernels of
`compmech/panel/connections/kCLTxycte.pyx`.

The three procedures `fkCBFxcte11`, `fkCBFxycte12` and `fkCBFycte22` are
embedded shallowly: machine doubles become rationals, the preallocated
numpy coordinate arrays become lists of `(row, col, value)` triples written
left to right, and the external Bardell evaluators (`integral_ff`, `calc_f`,
`calc_fxi` from `bardell.h` / `bardell_functions.h`) are abstracted as an
environment of black-box numerical functions, exactly as the specification
treats them.
-/

/-- Environment of the external Bardell basis and integral evaluators.
`integral_ff i j x1t x1r x2t x2r y1t y1r y2t y2r` is the cross integral of
basis functions `i` and `j`, each parameterized by four boundary
coefficients; `calc_f i xi ...` and `calc_fxi i xi ...` evaluate basis
function `i` and its `xi`-derivative at the normalized coordinate `xi`. -/
structure BardellEnv where
  integral_ff : ℕ → ℕ → ℚ → ℚ → ℚ → ℚ → ℚ → ℚ → ℚ → ℚ → ℚ
  calc_f : ℕ → ℚ → ℚ → ℚ → ℚ → ℚ → ℚ
  calc_fxi : ℕ → ℚ → ℚ → ℚ → ℚ → ℚ → ℚ

/-- Panel descriptor: extents `a`, `b`, truncation orders `m`, `n`, and the
24 boundary-condition coefficients read by the kernels (per displacement
field `u`, `v`, `w`, per axis `x`, `y`, the four coefficients `1t 1r 2t 2r`). -/
structure Panel where
  a : ℚ
  b : ℚ
  m : ℕ
  n : ℕ
  u1tx : ℚ
  u1rx : ℚ
  u2tx : ℚ
  u2rx : ℚ
  v1tx : ℚ
  v1rx : ℚ
  v2tx : ℚ
  v2rx : ℚ
  w1tx : ℚ
  w1rx : ℚ
  w2tx : ℚ
  w2rx : ℚ
  u1ty : ℚ
  u1ry : ℚ
  u2ty : ℚ
  u2ry : ℚ
  v1ty : ℚ
  v1ry : ℚ
  v2ty : ℚ
  v2ry : ℚ
  w1ty : ℚ
  w1ry : ℚ
  w2ty : ℚ
  w2ry : ℚ
deriving DecidableEq

/-- The fixed number of degrees of freedom per basis-term pair
(`cdef int num = 3` in the source). -/
def num : ℤ := 3

/-- Triples `(row, col, value)` written by the loop of `fkCBFxcte11`
(`kCLTxycte.pyx` lines 100-138), in emission order.  Combinations skipped
by the upper-triangle guard `if row > col: continue` contribute nothing. -/
def fkCBFxcte11_entries (env : BardellEnv) (kt kr : ℚ) (p1 : Panel)
    (xcte1 : ℚ) (row0 col0 : ℤ) : List (ℤ × ℤ × ℚ) :=
  let a1 := p1.a
  let b1 := p1.b
  let m1 := p1.m
  let n1 := p1.n
  let xicte1 := 2*xcte1/a1 - 1
  (List.range n1).flatMap fun j1 =>
    (List.range n1).flatMap fun l1 =>
      let g1Aug1Bu := env.integral_ff j1 l1 p1.u1ty p1.u1ry p1.u2ty p1.u2ry p1.u1ty p1.u1ry p1.u2ty p1.u2ry
      let g1Avg1Bv := env.integral_ff j1 l1 p1.v1ty p1.v1ry p1.v2ty p1.v2ry p1.v1ty p1.v1ry p1.v2ty p1.v2ry
      let g1Awg1Bw := env.integral_ff j1 l1 p1.w1ty p1.w1ry p1.w2ty p1.w2ry p1.w1ty p1.w1ry p1.w2ty p1.w2ry
      (List.range m1).flatMap fun i1 =>
        let f1Au := env.calc_f i1 xicte1 p1.u1tx p1.u1rx p1.u2tx p1.u2rx
        let f1Av := env.calc_f i1 xicte1 p1.v1tx p1.v1rx p1.v2tx p1.v2rx
        let f1Aw := env.calc_f i1 xicte1 p1.w1tx p1.w1rx p1.w2tx p1.w2rx
        let f1Awxi := env.calc_fxi i1 xicte1 p1.w1tx p1.w1rx p1.w2tx p1.w2rx
        (List.range m1).flatMap fun k1 =>
          let row := row0 + num*(j1*m1 + i1 : ℕ)
          let col := col0 + num*(l1*m1 + k1 : ℕ)
          if row > col then [] else
            let f1Bu := env.calc_f k1 xicte1 p1.u1tx p1.u1rx p1.u2tx p1.u2rx
            let f1Bv := env.calc_f k1 xicte1 p1.v1tx p1.v1rx p1.v2tx p1.v2rx
            let f1Bw := env.calc_f k1 xicte1 p1.w1tx p1.w1rx p1.w2tx p1.w2rx
            let f1Bwxi := env.calc_fxi k1 xicte1 p1.w1tx p1.w1rx p1.w2tx p1.w2rx
            [(row+0, col+0, (1/2)*b1 * f1Au*f1Bu*g1Aug1Bu*kt),
             (row+1, col+1, (1/2)*b1 * f1Av*f1Bv*g1Avg1Bv*kt),
             (row+2, col+2, (1/2)*b1*kt * (f1Aw*f1Bw*g1Awg1Bw + 4*f1Awxi*f1Bwxi*g1Awg1Bw*kr/((a1*a1)*kt)))]

/-- Triples `(row, col, value)` written by the loop of `fkCBFxycte12`
(`kCLTxycte.pyx` lines 230-273), in emission order.  No symmetry guard
applies, so every `(j1, k2, i1, l2)` combination writes its four entries. -/
def fkCBFxycte12_entries (env : BardellEnv) (kt kr : ℚ) (p1 p2 : Panel)
    (xcte1 ycte2 : ℚ) (row0 col0 : ℤ) : List (ℤ × ℤ × ℚ) :=
  let a1 := p1.a
  let a2 := p2.a
  let b1 := p1.b
  let b2 := p2.b
  let m1 := p1.m
  let n1 := p1.n
  let m2 := p2.m
  let n2 := p2.n
  let xicte1 := 2*xcte1/a1 - 1
  let etacte2 := 2*ycte2/b2 - 1
  (List.range n1).flatMap fun j1 =>
    (List.range m2).flatMap fun k2 =>
      let g1Auf2Bw := env.integral_ff j1 k2 p1.u1ty p1.u1ry p1.u2ty p1.u2ry p2.w1tx p2.w1rx p2.w2tx p2.w2rx
      let g1Avf2Bu := env.integral_ff j1 k2 p1.v1ty p1.v1ry p1.v2ty p1.v2ry p2.u1tx p2.u1rx p2.u2tx p2.u2rx
      let g1Awf2Bv := env.integral_ff j1 k2 p1.w1ty p1.w1ry p1.w2ty p1.w2ry p2.v1tx p2.v1rx p2.v2tx p2.v2rx
      let g1Awf2Bw := env.integral_ff j1 k2 p1.w1ty p1.w1ry p1.w2ty p1.w2ry p2.w1tx p2.w1rx p2.w2tx p2.w2rx
      (List.range m1).flatMap fun i1 =>
        let f1Au := env.calc_f i1 xicte1 p1.u1tx p1.u1rx p1.u2tx p1.u2rx
        let f1Av := env.calc_f i1 xicte1 p1.v1tx p1.v1rx p1.v2tx p1.v2rx
        let f1Aw := env.calc_f i1 xicte1 p1.w1tx p1.w1rx p1.w2tx p1.w2rx
        let f1Awxi := env.calc_fxi i1 xicte1 p1.w1tx p1.w1rx p1.w2tx p1.w2rx
        (List.range n2).flatMap fun l2 =>
          let row := row0 + num*(j1*m1 + i1 : ℕ)
          let col := col0 + num*(l2*m2 + k2 : ℕ)
          let g2Bu := env.calc_f l2 etacte2 p2.u1ty p2.u1ry p2.u2ty p2.u2ry
          let g2Bv := env.calc_f l2 etacte2 p2.v1ty p2.v1ry p2.v2ty p2.v2ry
          let g2Bw := env.calc_f l2 etacte2 p2.w1ty p2.w1ry p2.w2ty p2.w2ry
          let g2Bwxi := env.calc_fxi l2 etacte2 p2.w1ty p2.w1ry p2.w2ty p2.w2ry
          [(row+0, col+0, -(1/4)*b1*a2 * g1Auf2Bw*f1Au*g2Bw*kt),
           (row+1, col+2, -(1/4)*b1*a2 * g1Avf2Bu*f1Av*g2Bu*kt),
           (row+2, col+1, (1/4)*b1*a2 * g1Awf2Bv*f1Aw*g2Bv*kt),
           (row+2, col+2, -1*b1*a2 * g1Awf2Bw*f1Awxi*g2Bwxi*kr/(a1*b2))]

/-- Triples `(row, col, value)` written by the loop of `fkCBFycte22`
(`kCLTxycte.pyx` lines 348-386), in emission order.  The `p1` argument of
the source procedure is never read inside the loop, so it does not appear
here; the wrapper `fkCBFycte22` below still accepts it. -/
def fkCBFycte22_entries (env : BardellEnv) (kt kr : ℚ) (p2 : Panel)
    (ycte2 : ℚ) (row0 col0 : ℤ) : List (ℤ × ℤ × ℚ) :=
  let a2 := p2.a
  let b2 := p2.b
  let m2 := p2.m
  let n2 := p2.n
  let etacte2 := 2*ycte2/b2 - 1
  (List.range m2).flatMap fun i2 =>
    (List.range m2).flatMap fun k2 =>
      let f2Auf2Bu := env.integral_ff i2 k2 p2.u1tx p2.u1rx p2.u2tx p2.u2rx p2.u1tx p2.u1rx p2.u2tx p2.u2rx
      let f2Avf2Bv := env.integral_ff i2 k2 p2.v1tx p2.v1rx p2.v2tx p2.v2rx p2.v1tx p2.v1rx p2.v2tx p2.v2rx
      let f2Awf2Bw := env.integral_ff i2 k2 p2.w1tx p2.w1rx p2.w2tx p2.w2rx p2.w1tx p2.w1rx p2.w2tx p2.w2rx
      (List.range n2).flatMap fun j2 =>
        let g2Au := env.calc_f j2 etacte2 p2.u1ty p2.u1ry p2.u2ty p2.u2ry
        let g2Av := env.calc_f j2 etacte2 p2.v1ty p2.v1ry p2.v2ty p2.v2ry
        let g2Aw := env.calc_f j2 etacte2 p2.w1ty p2.w1ry p2.w2ty p2.w2ry
        let g2Awxi := env.calc_fxi j2 etacte2 p2.w1ty p2.w1ry p2.w2ty p2.w2ry
        (List.range n2).flatMap fun l2 =>
          let row := row0 + num*(j2*m2 + i2 : ℕ)
          let col := col0 + num*(l2*m2 + k2 : ℕ)
          if row > col then [] else
            let g2Bu := env.calc_f l2 etacte2 p2.u1ty p2.u1ry p2.u2ty p2.u2ry
            let g2Bv := env.calc_f l2 etacte2 p2.v1ty p2.v1ry p2.v2ty p2.v2ry
            let g2Bw := env.calc_f l2 etacte2 p2.w1ty p2.w1ry p2.w2ty p2.w2ry
            let g2Bwxi := env.calc_fxi l2 etacte2 p2.w1ty p2.w1ry p2.w2ty p2.w2ry
            [(row+0, col+0, (1/2)*a2 * f2Auf2Bu*g2Au*g2Bu*kt),
             (row+1, col+1, (1/2)*a2 * f2Avf2Bv*g2Av*g2Bv*kt),
             (row+2, col+2, (1/2)*a2 * kt*(f2Awf2Bw*g2Aw*g2Bw + 4*f2Awf2Bw*g2Awxi*g2Bwxi*kr/((b2*b2)*kt)))]

/-- Sparse coordinate data of a returned `coo_matrix`: the three parallel
arrays together with the declared square shape. -/
structure CooData where
  size : ℤ
  rows : List ℤ
  cols : List ℤ
  vals : List ℚ
deriving DecidableEq

/-- Builds the three parallel coordinate arrays from the written entry
triples: the source preallocates `np.zeros((fdim,))` arrays and writes them
left to right from index 0, so the returned arrays are the written triples
followed by untouched all-zero slots up to length `fdim`. -/
def mkCoo (size : ℤ) (fdim : ℕ) (entries : List (ℤ × ℤ × ℚ)) : CooData :=
  let full := entries ++ List.replicate (fdim - entries.length) (0, 0, 0)
  { size := size
    rows := full.map fun t => t.1
    cols := full.map fun t => t.2.1
    vals := full.map fun t => t.2.2 }

/-- The full result of `fkCBFxcte11`: coordinate arrays of allocated length
`fdim = 3*m1*n1*m1*n1` (`kCLTxycte.pyx` line 94) with shape `size × size`. -/
def fkCBFxcte11 (env : BardellEnv) (kt kr : ℚ) (p1 : Panel) (xcte1 : ℚ)
    (size : ℤ) (row0 col0 : ℤ) : CooData :=
  mkCoo size (3*p1.m*p1.n*p1.m*p1.n) (fkCBFxcte11_entries env kt kr p1 xcte1 row0 col0)

/-- The full result of `fkCBFxycte12`: coordinate arrays of allocated length
`fdim = 4*m1*n1*m2*n2` (`kCLTxycte.pyx` line 224) with shape `size × size`. -/
def fkCBFxycte12 (env : BardellEnv) (kt kr : ℚ) (p1 p2 : Panel)
    (xcte1 ycte2 : ℚ) (size : ℤ) (row0 col0 : ℤ) : CooData :=
  mkCoo size (4*p1.m*p1.n*p2.m*p2.n) (fkCBFxycte12_entries env kt kr p1 p2 xcte1 ycte2 row0 col0)

/-- The full result of `fkCBFycte22`: coordinate arrays of allocated length
`fdim = 3*m2*n2*m2*n2` (`kCLTxycte.pyx` line 342) with shape `size × size`.
The source signature receives `p1` but its body never reads it. -/
def fkCBFycte22 (env : BardellEnv) (kt kr : ℚ) (p1 p2 : Panel)
    (ycte2 : ℚ) (size : ℤ) (row0 col0 : ℤ) : CooData :=
  mkCoo size (3*p2.m*p2.n*p2.m*p2.n) (fkCBFycte22_entries env kt kr p2 ycte2 row0 col0)

/-- Division that reports a zero denominator instead of silently producing
a value, used by the guarded-division embeddings below. -/
def divGuard (x y : ℚ) : Option ℚ :=
  if y = 0 then none else some (x / y)

/-- Collects a list of guarded values, failing if any element failed. -/
def optList {α : Type} : List (Option α) → Option (List α)
  | [] => some []
  | none :: _ => none
  | some a :: xs => (optList xs).map fun l => a :: l

/-- Guarded-division embedding of `fkCBFxcte11`: identical to
`fkCBFxcte11_entries` except that the two divisions the source performs
(the coordinate normalization `2*xcte1/a1` on line 92 and the rotational
term `.../((a1*a1)*kt)` on line 138) go through `divGuard`, so the result
is `none` exactly when some executed division has a zero denominator. -/
def fkCBFxcte11_checked (env : BardellEnv) (kt kr : ℚ) (p1 : Panel)
    (xcte1 : ℚ) (row0 col0 : ℤ) : Option (List (ℤ × ℤ × ℚ)) :=
  let a1 := p1.a
  let b1 := p1.b
  let m1 := p1.m
  let n1 := p1.n
  (divGuard (2*xcte1) a1).bind fun q =>
  let xicte1 := q - 1
  optList <|
    (List.range n1).flatMap fun j1 =>
      (List.range n1).flatMap fun l1 =>
        let g1Aug1Bu := env.integral_ff j1 l1 p1.u1ty p1.u1ry p1.u2ty p1.u2ry p1.u1ty p1.u1ry p1.u2ty p1.u2ry
        let g1Avg1Bv := env.integral_ff j1 l1 p1.v1ty p1.v1ry p1.v2ty p1.v2ry p1.v1ty p1.v1ry p1.v2ty p1.v2ry
        let g1Awg1Bw := env.integral_ff j1 l1 p1.w1ty p1.w1ry p1.w2ty p1.w2ry p1.w1ty p1.w1ry p1.w2ty p1.w2ry
        (List.range m1).flatMap fun i1 =>
          let f1Au := env.calc_f i1 xicte1 p1.u1tx p1.u1rx p1.u2tx p1.u2rx
          let f1Av := env.calc_f i1 xicte1 p1.v1tx p1.v1rx p1.v2tx p1.v2rx
          let f1Aw := env.calc_f i1 xicte1 p1.w1tx p1.w1rx p1.w2tx p1.w2rx
          let f1Awxi := env.calc_fxi i1 xicte1 p1.w1tx p1.w1rx p1.w2tx p1.w2rx
          (List.range m1).flatMap fun k1 =>
            let row := row0 + num*(j1*m1 + i1 : ℕ)
            let col := col0 + num*(l1*m1 + k1 : ℕ)
            if row > col then [] else
              let f1Bu := env.calc_f k1 xicte1 p1.u1tx p1.u1rx p1.u2tx p1.u2rx
              let f1Bv := env.calc_f k1 xicte1 p1.v1tx p1.v1rx p1.v2tx p1.v2rx
              let f1Bw := env.calc_f k1 xicte1 p1.w1tx p1.w1rx p1.w2tx p1.w2rx
              let f1Bwxi := env.calc_fxi k1 xicte1 p1.w1tx p1.w1rx p1.w2tx p1.w2rx
              [some (row+0, col+0, (1/2)*b1 * f1Au*f1Bu*g1Aug1Bu*kt),
               some (row+1, col+1, (1/2)*b1 * f1Av*f1Bv*g1Avg1Bv*kt),
               (divGuard (4*f1Awxi*f1Bwxi*g1Awg1Bw*kr) ((a1*a1)*kt)).map fun z =>
                 (row+2, col+2, (1/2)*b1*kt * (f1Aw*f1Bw*g1Awg1Bw + z))]

/-- Guarded-division embedding of `fkCBFycte22`: identical to
`fkCBFycte22_entries` except that the two divisions the source performs
(the normalization `2*ycte2/b2` on line 340 and the rotational term
`.../((b2*b2)*kt)` on line 386) go through `divGuard`. -/
def fkCBFycte22_checked (env : BardellEnv) (kt kr : ℚ) (p2 : Panel)
    (ycte2 : ℚ) (row0 col0 : ℤ) : Option (List (ℤ × ℤ × ℚ)) :=
  let a2 := p2.a
  let b2 := p2.b
  let m2 := p2.m
  let n2 := p2.n
  (divGuard (2*ycte2) b2).bind fun q =>
  let etacte2 := q - 1
  optList <|
    (List.range m2).flatMap fun i2 =>
      (List.range m2).flatMap fun k2 =>
        let f2Auf2Bu := env.integral_ff i2 k2 p2.u1tx p2.u1rx p2.u2tx p2.u2rx p2.u1tx p2.u1rx p2.u2tx p2.u2rx
        let f2Avf2Bv := env.integral_ff i2 k2 p2.v1tx p2.v1rx p2.v2tx p2.v2rx p2.v1tx p2.v1rx p2.v2tx p2.v2rx
        let f2Awf2Bw := env.integral_ff i2 k2 p2.w1tx p2.w1rx p2.w2tx p2.w2rx p2.w1tx p2.w1rx p2.w2tx p2.w2rx
        (List.range n2).flatMap fun j2 =>
          let g2Au := env.calc_f j2 etacte2 p2.u1ty p2.u1ry p2.u2ty p2.u2ry
          let g2Av := env.calc_f j2 etacte2 p2.v1ty p2.v1ry p2.v2ty p2.v2ry
          let g2Aw := env.calc_f j2 etacte2 p2.w1ty p2.w1ry p2.w2ty p2.w2ry
          let g2Awxi := env.calc_fxi j2 etacte2 p2.w1ty p2.w1ry p2.w2ty p2.w2ry
          (List.range n2).flatMap fun l2 =>
            let row := row0 + num*(j2*m2 + i2 : ℕ)
            let col := col0 + num*(l2*m2 + k2 : ℕ)
            if row > col then [] else
              let g2Bu := env.calc_f l2 etacte2 p2.u1ty p2.u1ry p2.u2ty p2.u2ry
              let g2Bv := env.calc_f l2 etacte2 p2.v1ty p2.v1ry p2.v2ty p2.v2ry
              let g2Bw := env.calc_f l2 etacte2 p2.w1ty p2.w1ry p2.w2ty p2.w2ry
              let g2Bwxi := env.calc_fxi l2 etacte2 p2.w1ty p2.w1ry p2.w2ty p2.w2ry
              [some (row+0, col+0, (1/2)*a2 * f2Auf2Bu*g2Au*g2Bu*kt),
               some (row+1, col+1, (1/2)*a2 * f2Avf2Bv*g2Av*g2Bv*kt),
               (divGuard (4*f2Awf2Bw*g2Awxi*g2Bwxi*kr) ((b2*b2)*kt)).map fun z =>
                 (row+2, col+2, (1/2)*a2 * kt*(f2Awf2Bw*g2Aw*g2Bw + z))]

/-- Axis exchange of a panel descriptor: swaps the extents `a` and `b`, the
truncation orders `m` and `n`, and the x-edge and y-edge boundary
coefficients of every displacement field. -/
def Panel.swapAxes (p : Panel) : Panel where
  a := p.b
  b := p.a
  m := p.n
  n := p.m
  u1tx := p.u1ty
  u1rx := p.u1ry
  u2tx := p.u2ty
  u2rx := p.u2ry
  v1tx := p.v1ty
  v1rx := p.v1ry
  v2tx := p.v2ty
  v2rx := p.v2ry
  w1tx := p.w1ty
  w1rx := p.w1ry
  w2tx := p.w2ty
  w2rx := p.w2ry
  u1ty := p.u1tx
  u1ry := p.u1rx
  u2ty := p.u2tx
  u2ry := p.u2rx
  v1ty := p.v1tx
  v1ry := p.v1rx
  v2ty := p.v2tx
  v2ry := p.v2rx
  w1ty := p.w1tx
  w1ry := p.w1rx
  w2ty := p.w2tx
  w2ry := p.w2rx

/-- The y-axis dual of `fkCBFxcte11` described by specification section 4.3:
the single-edge algorithm of section 4.1 applied to panel 2 with the roles
of the two axes exchanged (`a` and `b`, x-edge and y-edge boundary
coefficients, `xcte` and `ycte`), while the row/col packing stays the
packing of the original panel 2: `offset + 3*(y_index*m2 + x_index)`.
This definition follows the specification's words; the claim compares it
with `fkCBFycte22_entries`, which is translated from the source. -/
def fkCBFycte22_specDual (env : BardellEnv) (kt kr : ℚ) (p2 : Panel)
    (ycte2 : ℚ) (row0 col0 : ℤ) : List (ℤ × ℤ × ℚ) :=
  let q := p2.swapAxes
  let a1 := q.a
  let b1 := q.b
  let m1 := q.m
  let n1 := q.n
  let xicte1 := 2*ycte2/a1 - 1
  (List.range n1).flatMap fun j1 =>
    (List.range n1).flatMap fun l1 =>
      let g1Aug1Bu := env.integral_ff j1 l1 q.u1ty q.u1ry q.u2ty q.u2ry q.u1ty q.u1ry q.u2ty q.u2ry
      let g1Avg1Bv := env.integral_ff j1 l1 q.v1ty q.v1ry q.v2ty q.v2ry q.v1ty q.v1ry q.v2ty q.v2ry
      let g1Awg1Bw := env.integral_ff j1 l1 q.w1ty q.w1ry q.w2ty q.w2ry q.w1ty q.w1ry q.w2ty q.w2ry
      (List.range m1).flatMap fun i1 =>
        let f1Au := env.calc_f i1 xicte1 q.u1tx q.u1rx q.u2tx q.u2rx
        let f1Av := env.calc_f i1 xicte1 q.v1tx q.v1rx q.v2tx q.v2rx
        let f1Aw := env.calc_f i1 xicte1 q.w1tx q.w1rx q.w2tx q.w2rx
        let f1Awxi := env.calc_fxi i1 xicte1 q.w1tx q.w1rx q.w2tx q.w2rx
        (List.range m1).flatMap fun k1 =>
          let row := row0 + num*(i1*p2.m + j1 : ℕ)
          let col := col0 + num*(k1*p2.m + l1 : ℕ)
          if row > col then [] else
            let f1Bu := env.calc_f k1 xicte1 q.u1tx q.u1rx q.u2tx q.u2rx
            let f1Bv := env.calc_f k1 xicte1 q.v1tx q.v1rx q.v2tx q.v2rx
            let f1Bw := env.calc_f k1 xicte1 q.w1tx q.w1rx q.w2tx q.w2rx
            let f1Bwxi := env.calc_fxi k1 xicte1 q.w1tx q.w1rx q.w2tx q.w2rx
            [(row+0, col+0, (1/2)*b1 * f1Au*f1Bu*g1Aug1Bu*kt),
             (row+1, col+1, (1/2)*b1 * f1Av*f1Bv*g1Avg1Bv*kt),
             (row+2, col+2, (1/2)*b1*kt * (f1Aw*f1Bw*g1Awg1Bw + 4*f1Awxi*f1Bwxi*g1Awg1Bw*kr/((a1*a1)*kt)))]

/-- The value `fkCBFxcte11` computes for degree of freedom `d` (0 for `u`,
1 for `v`, anything else for `w`) of the basis-index combination
`(i1, j1, k1, l1)`: the formulas of `kCLTxycte.pyx` lines 130, 134 and 138
as a function of the indices. -/
def xcte11_val (env : BardellEnv) (kt kr : ℚ) (p1 : Panel) (xcte1 : ℚ)
    (d i1 j1 k1 l1 : ℕ) : ℚ :=
  let a1 := p1.a
  let b1 := p1.b
  let xicte1 := 2*xcte1/a1 - 1
  match d with
  | 0 =>
    (1/2)*b1 * (env.calc_f i1 xicte1 p1.u1tx p1.u1rx p1.u2tx p1.u2rx)
      * (env.calc_f k1 xicte1 p1.u1tx p1.u1rx p1.u2tx p1.u2rx)
      * (env.integral_ff j1 l1 p1.u1ty p1.u1ry p1.u2ty p1.u2ry p1.u1ty p1.u1ry p1.u2ty p1.u2ry)*kt
  | 1 =>
    (1/2)*b1 * (env.calc_f i1 xicte1 p1.v1tx p1.v1rx p1.v2tx p1.v2rx)
      * (env.calc_f k1 xicte1 p1.v1tx p1.v1rx p1.v2tx p1.v2rx)
      * (env.integral_ff j1 l1 p1.v1ty p1.v1ry p1.v2ty p1.v2ry p1.v1ty p1.v1ry p1.v2ty p1.v2ry)*kt
  | _ =>
    (1/2)*b1*kt * ((env.calc_f i1 xicte1 p1.w1tx p1.w1rx p1.w2tx p1.w2rx)
        * (env.calc_f k1 xicte1 p1.w1tx p1.w1rx p1.w2tx p1.w2rx)
        * (env.integral_ff j1 l1 p1.w1ty p1.w1ry p1.w2ty p1.w2ry p1.w1ty p1.w1ry p1.w2ty p1.w2ry)
      + 4*(env.calc_fxi i1 xicte1 p1.w1tx p1.w1rx p1.w2tx p1.w2rx)
        * (env.calc_fxi k1 xicte1 p1.w1tx p1.w1rx p1.w2tx p1.w2rx)
        * (env.integral_ff j1 l1 p1.w1ty p1.w1ry p1.w2ty p1.w2ry p1.w1ty p1.w1ry p1.w2ty p1.w2ry)
        * kr/((a1*a1)*kt))

/-- The value `fkCBFycte22` computes for degree of freedom `d` of the
basis-index combination `(i2, j2, k2, l2)`: the formulas of
`kCLTxycte.pyx` lines 378, 382 and 386 as a function of the indices. -/
def ycte22_val (env : BardellEnv) (kt kr : ℚ) (p2 : Panel) (ycte2 : ℚ)
    (d i2 j2 k2 l2 : ℕ) : ℚ :=
  let a2 := p2.a
  let b2 := p2.b
  let etacte2 := 2*ycte2/b2 - 1
  match d with
  | 0 =>
    (1/2)*a2 * (env.integral_ff i2 k2 p2.u1tx p2.u1rx p2.u2tx p2.u2rx p2.u1tx p2.u1rx p2.u2tx p2.u2rx)
      * (env.calc_f j2 etacte2 p2.u1ty p2.u1ry p2.u2ty p2.u2ry)
      * (env.calc_f l2 etacte2 p2.u1ty p2.u1ry p2.u2ty p2.u2ry)*kt
  | 1 =>
    (1/2)*a2 * (env.integral_ff i2 k2 p2.v1tx p2.v1rx p2.v2tx p2.v2rx p2.v1tx p2.v1rx p2.v2tx p2.v2rx)
      * (env.calc_f j2 etacte2 p2.v1ty p2.v1ry p2.v2ty p2.v2ry)
      * (env.calc_f l2 etacte2 p2.v1ty p2.v1ry p2.v2ty p2.v2ry)*kt
  | _ =>
    (1/2)*a2 * kt*((env.integral_ff i2 k2 p2.w1tx p2.w1rx p2.w2tx p2.w2rx p2.w1tx p2.w1rx p2.w2tx p2.w2rx)
        * (env.calc_f j2 etacte2 p2.w1ty p2.w1ry p2.w2ty p2.w2ry)
        * (env.calc_f l2 etacte2 p2.w1ty p2.w1ry p2.w2ty p2.w2ry)
      + 4*(env.integral_ff i2 k2 p2.w1tx p2.w1rx p2.w2tx p2.w2rx p2.w1tx p2.w1rx p2.w2tx p2.w2rx)
        * (env.calc_fxi j2 etacte2 p2.w1ty p2.w1ry p2.w2ty p2.w2ry)
        * (env.calc_fxi l2 etacte2 p2.w1ty p2.w1ry p2.w2ty p2.w2ry)
        * kr/((b2*b2)*kt))

/-- A concrete environment in which every basis value, derivative and
integral evaluates to `1`; it is trivially symmetric in the two indices
of `integral_ff`. -/
def envOne : BardellEnv where
  integral_ff := fun _ _ _ _ _ _ _ _ _ _ => 1
  calc_f := fun _ _ _ _ _ _ => 1
  calc_fxi := fun _ _ _ _ _ _ => 1

/-- A concrete unit panel with `m = n = 1` and all boundary coefficients 1. -/
def panelA : Panel where
  a := 1
  b := 1
  m := 1
  n := 1
  u1tx := 1
  u1rx := 1
  u2tx := 1
  u2rx := 1
  v1tx := 1
  v1rx := 1
  v2tx := 1
  v2rx := 1
  w1tx := 1
  w1rx := 1
  w2tx := 1
  w2rx := 1
  u1ty := 1
  u1ry := 1
  u2ty := 1
  u2ry := 1
  v1ty := 1
  v1ry := 1
  v2ty := 1
  v2ry := 1
  w1ty := 1
  w1ry := 1
  w2ty := 1
  w2ry := 1

/-- A concrete panel with `m = 1`, `n = 2`, used to exercise the
upper-triangle skip and the zero padding of the preallocated arrays. -/
def panelB : Panel where
  a := 1
  b := 1
  m := 1
  n := 2
  u1tx := 1
  u1rx := 1
  u2tx := 1
  u2rx := 1
  v1tx := 1
  v1rx := 1
  v2tx := 1
  v2rx := 1
  w1tx := 1
  w1rx := 1
  w2tx := 1
  w2rx := 1
  u1ty := 1
  u1ry := 1
  u2ty := 1
  u2ry := 1
  v1ty := 1
  v1ry := 1
  v2ty := 1
  v2ry := 1
  w1ty := 1
  w1ry := 1
  w2ty := 1
  w2ry := 1

/-- Characterization of `fkCBFxcte11_entries` through `xcte11_val`: the
loop emits, per surviving combination, the three diagonal values given by
`xcte11_val` at degrees of freedom 0, 1, 2. -/
theorem fkCBFxcte11_entries_eq_val (env : BardellEnv) (kt kr : ℚ) (p1 : Panel)
    (xcte1 : ℚ) (row0 col0 : ℤ) :
    fkCBFxcte11_entries env kt kr p1 xcte1 row0 col0 =
      (List.range p1.n).flatMap fun j1 =>
        (List.range p1.n).flatMap fun l1 =>
          (List.range p1.m).flatMap fun i1 =>
            (List.range p1.m).flatMap fun k1 =>
              let row := row0 + num*(j1*p1.m + i1 : ℕ)
              let col := col0 + num*(l1*p1.m + k1 : ℕ)
              if row > col then [] else
                [(row+0, col+0, xcte11_val env kt kr p1 xcte1 0 i1 j1 k1 l1),
                 (row+1, col+1, xcte11_val env kt kr p1 xcte1 1 i1 j1 k1 l1),
                 (row+2, col+2, xcte11_val env kt kr p1 xcte1 2 i1 j1 k1 l1)] := rfl

/-- Characterization of `fkCBFycte22_entries` through `ycte22_val`. -/
theorem fkCBFycte22_entries_eq_val (env : BardellEnv) (kt kr : ℚ) (p2 : Panel)
    (ycte2 : ℚ) (row0 col0 : ℤ) :
    fkCBFycte22_entries env kt kr p2 ycte2 row0 col0 =
      (List.range p2.m).flatMap fun i2 =>
        (List.range p2.m).flatMap fun k2 =>
          (List.range p2.n).flatMap fun j2 =>
            (List.range p2.n).flatMap fun l2 =>
              let row := row0 + num*(j2*p2.m + i2 : ℕ)
              let col := col0 + num*(l2*p2.m + k2 : ℕ)
              if row > col then [] else
                [(row+0, col+0, ycte22_val env kt kr p2 ycte2 0 i2 j2 k2 l2),
                 (row+1, col+1, ycte22_val env kt kr p2 ycte2 1 i2 j2 k2 l2),
                 (row+2, col+2, ycte22_val env kt kr p2 ycte2 2 i2 j2 k2 l2)] := rfl

/-- Pointwise congruence for `List.flatMap`. -/
theorem flatMap_congr_mem {α β : Type} {l : List α} {f g : α → List β}
    (h : ∀ x ∈ l, f x = g x) : l.flatMap f = l.flatMap g := by
  induction l with
  | nil => rfl
  | cons a t ih =>
    simp only [List.flatMap_cons]
    rw [h a (List.mem_cons_self a t), ih fun x hx => h x (List.mem_cons_of_mem a hx)]

/-- Length of a `flatMap` whose pieces all have the same length. -/
theorem flatMap_length_const {α β : Type} {l : List α} {f : α → List β} {k : ℕ}
    (h : ∀ x ∈ l, (f x).length = k) : (l.flatMap f).length = l.length * k := by
  induction l with
  | nil => simp
  | cons a t ih =>
    simp only [List.flatMap_cons, List.length_append, List.length_cons,
      h a (List.mem_cons_self a t), ih fun x hx => h x (List.mem_cons_of_mem a hx)]
    ring

/-- Length bound for a `flatMap` whose pieces are all short. -/
theorem flatMap_length_le {α β : Type} {l : List α} {f : α → List β} {k : ℕ}
    (h : ∀ x ∈ l, (f x).length ≤ k) : (l.flatMap f).length ≤ l.length * k := by
  induction l with
  | nil => simp
  | cons a t ih =>
    simp only [List.flatMap_cons, List.length_append, List.length_cons]
    have h1 := h a (List.mem_cons_self a t)
    have h2 := ih fun x hx => h x (List.mem_cons_of_mem a hx)
    calc (f a).length + (t.flatMap f).length ≤ k + t.length * k := Nat.add_le_add h1 h2
    _ = (t.length + 1) * k := by ring

/-- Collecting a list of already-successful options succeeds with the list
of their values. -/
theorem optList_map_some {α : Type} (l : List α) : optList (l.map some) = some l := by
  induction l with
  | nil => rfl
  | cons a t ih =>
    simp only [List.map_cons, optList]
    rw [ih]
    rfl

/-- Packing bound: the flattened basis-pair index stays below `n*m`. -/
theorem idx_lt {i j m n : ℕ} (hi : i < m) (hj : j < n) : j*m + i < n*m := by
  calc j*m + i < j*m + m := by omega
  _ = (j+1)*m := by ring
  _ ≤ n*m := Nat.mul_le_mul_right m hj

/-- Every entry written by `fkCBFxcte11` comes from a basis-index
combination in range, sits at a diagonal offset `d < 3` of the packed
`(row, col)` pair, and lies in the upper triangle. -/
theorem xcte11_shape (env : BardellEnv) (kt kr : ℚ) (p1 : Panel)
    (xcte1 : ℚ) (row0 col0 : ℤ) {t : ℤ × ℤ × ℚ}
    (ht : t ∈ fkCBFxcte11_entries env kt kr p1 xcte1 row0 col0) :
    ∃ i j k l d : ℕ, i < p1.m ∧ j < p1.n ∧ k < p1.m ∧ l < p1.n ∧ d < 3 ∧
      t.1 = row0 + 3*((j*p1.m + i : ℕ) : ℤ) + (d : ℤ) ∧
      t.2.1 = col0 + 3*((l*p1.m + k : ℕ) : ℤ) + (d : ℤ) ∧ t.1 ≤ t.2.1 := by
  simp only [fkCBFxcte11_entries, List.mem_flatMap, List.mem_range] at ht
  obtain ⟨j, hj, l, hl, i, hi, k, hk, ht⟩ := ht
  by_cases hrc : row0 + num*(j*p1.m + i : ℕ) > col0 + num*(l*p1.m + k : ℕ)
  · rw [if_pos hrc] at ht
    simp at ht
  · rw [if_neg hrc] at ht
    simp only [num] at hrc
    simp only [List.mem_cons, List.not_mem_nil, or_false] at ht
    rcases ht with h | h | h <;> subst h
    · exact ⟨i, j, k, l, 0, hi, hj, hk, hl, by omega, by simp [num], by simp [num],
        by simp only [num]; omega⟩
    · exact ⟨i, j, k, l, 1, hi, hj, hk, hl, by omega, by simp [num], by simp [num],
        by simp only [num]; omega⟩
    · exact ⟨i, j, k, l, 2, hi, hj, hk, hl, by omega, by simp [num], by simp [num],
        by simp only [num]; omega⟩

/-- Every entry written by `fkCBFycte22` comes from a basis-index
combination in range, sits at a diagonal offset `d < 3` of the packed
`(row, col)` pair, and lies in the upper triangle. -/
theorem ycte22_shape (env : BardellEnv) (kt kr : ℚ) (p2 : Panel)
    (ycte2 : ℚ) (row0 col0 : ℤ) {t : ℤ × ℤ × ℚ}
    (ht : t ∈ fkCBFycte22_entries env kt kr p2 ycte2 row0 col0) :
    ∃ i j k l d : ℕ, i < p2.m ∧ j < p2.n ∧ k < p2.m ∧ l < p2.n ∧ d < 3 ∧
      t.1 = row0 + 3*((j*p2.m + i : ℕ) : ℤ) + (d : ℤ) ∧
      t.2.1 = col0 + 3*((l*p2.m + k : ℕ) : ℤ) + (d : ℤ) ∧ t.1 ≤ t.2.1 := by
  simp only [fkCBFycte22_entries, List.mem_flatMap, List.mem_range] at ht
  obtain ⟨i, hi, k, hk, j, hj, l, hl, ht⟩ := ht
  by_cases hrc : row0 + num*(j*p2.m + i : ℕ) > col0 + num*(l*p2.m + k : ℕ)
  · rw [if_pos hrc] at ht
    simp at ht
  · rw [if_neg hrc] at ht
    simp only [num] at hrc
    simp only [List.mem_cons, List.not_mem_nil, or_false] at ht
    rcases ht with h | h | h <;> subst h
    · exact ⟨i, j, k, l, 0, hi, hj, hk, hl, by omega, by simp [num], by simp [num],
        by simp only [num]; omega⟩
    · exact ⟨i, j, k, l, 1, hi, hj, hk, hl, by omega, by simp [num], by simp [num],
        by simp only [num]; omega⟩
    · exact ⟨i, j, k, l, 2, hi, hj, hk, hl, by omega, by simp [num], by simp [num],
        by simp only [num]; omega⟩

/-- Every entry written by `fkCBFxycte12` comes from a basis-index
combination in range and sits at one of the four fixed offset pairs
`(0,0)`, `(1,2)`, `(2,1)`, `(2,2)` of the packed `(row, col)` pair. -/
theorem xycte12_shape (env : BardellEnv) (kt kr : ℚ) (p1 p2 : Panel)
    (xcte1 ycte2 : ℚ) (row0 col0 : ℤ) {t : ℤ × ℤ × ℚ}
    (ht : t ∈ fkCBFxycte12_entries env kt kr p1 p2 xcte1 ycte2 row0 col0) :
    ∃ i j k l d e : ℕ, i < p1.m ∧ j < p1.n ∧ k < p2.m ∧ l < p2.n ∧
      ((d, e) = (0, 0) ∨ (d, e) = (1, 2) ∨ (d, e) = (2, 1) ∨ (d, e) = (2, 2)) ∧
      t.1 = row0 + 3*((j*p1.m + i : ℕ) : ℤ) + (d : ℤ) ∧
      t.2.1 = col0 + 3*((l*p2.m + k : ℕ) : ℤ) + (e : ℤ) := by
  simp only [fkCBFxycte12_entries, List.mem_flatMap, List.mem_range] at ht
  obtain ⟨j, hj, k, hk, i, hi, l, hl, ht⟩ := ht
  simp only [List.mem_cons, List.not_mem_nil, or_false] at ht
  rcases ht with h | h | h | h <;> subst h
  · exact ⟨i, j, k, l, 0, 0, hi, hj, hk, hl, by simp, by simp [num], by simp [num]⟩
  · exact ⟨i, j, k, l, 1, 2, hi, hj, hk, hl, by simp, by simp [num], by simp [num]⟩
  · exact ⟨i, j, k, l, 2, 1, hi, hj, hk, hl, by simp, by simp [num], by simp [num]⟩
  · exact ⟨i, j, k, l, 2, 2, hi, hj, hk, hl, by simp, by simp [num], by simp [num]⟩

/-- Length bound for a `flatMap` over an index range. -/
theorem flatMap_range_length_le {β : Type} (n k : ℕ) (f : ℕ → List β)
    (h : ∀ x, (f x).length ≤ k) : ((List.range n).flatMap f).length ≤ n * k :=
  le_trans (flatMap_length_le fun x _ => h x) (le_of_eq (by rw [List.length_range]))

/-- Exact length of a `flatMap` over an index range with constant-size pieces. -/
theorem flatMap_range_length_const {β : Type} (n k : ℕ) (f : ℕ → List β)
    (h : ∀ x, (f x).length = k) : ((List.range n).flatMap f).length = n * k := by
  rw [flatMap_length_const fun x _ => h x, List.length_range]

/-- The loop of `fkCBFxcte11` writes at most `fdim = 3*m1*n1*m1*n1` triples. -/
theorem xcte11_entries_length_le (env : BardellEnv) (kt kr : ℚ) (p1 : Panel)
    (xcte1 : ℚ) (row0 col0 : ℤ) :
    (fkCBFxcte11_entries env kt kr p1 xcte1 row0 col0).length ≤ 3*p1.m*p1.n*p1.m*p1.n := by
  simp only [fkCBFxcte11_entries]
  calc ((List.range p1.n).flatMap _).length ≤ p1.n * (p1.n * (p1.m * (p1.m * 3))) :=
      flatMap_range_length_le _ _ _ fun j =>
        flatMap_range_length_le _ _ _ fun l =>
          flatMap_range_length_le _ _ _ fun i =>
            flatMap_range_length_le _ _ _ fun k => by
              split
              · simp
              · simp
  _ = 3*p1.m*p1.n*p1.m*p1.n := by ring

/-- The loop of `fkCBFycte22` writes at most `fdim = 3*m2*n2*m2*n2` triples. -/
theorem ycte22_entries_length_le (env : BardellEnv) (kt kr : ℚ) (p2 : Panel)
    (ycte2 : ℚ) (row0 col0 : ℤ) :
    (fkCBFycte22_entries env kt kr p2 ycte2 row0 col0).length ≤ 3*p2.m*p2.n*p2.m*p2.n := by
  simp only [fkCBFycte22_entries]
  calc ((List.range p2.m).flatMap _).length ≤ p2.m * (p2.m * (p2.n * (p2.n * 3))) :=
      flatMap_range_length_le _ _ _ fun i =>
        flatMap_range_length_le _ _ _ fun k =>
          flatMap_range_length_le _ _ _ fun j =>
            flatMap_range_length_le _ _ _ fun l => by
              split
              · simp
              · simp
  _ = 3*p2.m*p2.n*p2.m*p2.n := by ring

/-- The loop of `fkCBFxycte12` writes exactly `fdim = 4*m1*n1*m2*n2` triples. -/
theorem xycte12_entries_length (env : BardellEnv) (kt kr : ℚ) (p1 p2 : Panel)
    (xcte1 ycte2 : ℚ) (row0 col0 : ℤ) :
    (fkCBFxycte12_entries env kt kr p1 p2 xcte1 ycte2 row0 col0).length = 4*p1.m*p1.n*p2.m*p2.n := by
  simp only [fkCBFxycte12_entries]
  calc ((List.range p1.n).flatMap _).length = p1.n * (p2.m * (p1.m * (p2.n * 4))) :=
      flatMap_range_length_const _ _ _ fun j =>
        flatMap_range_length_const _ _ _ fun k =>
          flatMap_range_length_const _ _ _ fun i =>
            flatMap_range_length_const _ _ _ fun l => by simp
  _ = 4*p1.m*p1.n*p2.m*p2.n := by ring

/-- The three parallel arrays built by `mkCoo` always have the allocated
length `fdim` when at most `fdim` triples were written. -/
theorem mkCoo_lengths (size : ℤ) (fdim : ℕ) (entries : List (ℤ × ℤ × ℚ))
    (h : entries.length ≤ fdim) :
    (mkCoo size fdim entries).rows.length = fdim ∧
    (mkCoo size fdim entries).cols.length = fdim ∧
    (mkCoo size fdim entries).vals.length = fdim := by
  simp only [mkCoo, List.length_map, List.length_append, List.length_replicate]
  omega

/-- Claim C10: the output of `fkCBFycte22` does not depend on its `p1`
argument: two calls that agree on everything except `p1` return identical
row, column and value sequences (and shape). -/
theorem claim_C10 (env : BardellEnv) (kt kr : ℚ) (p1 p1' p2 : Panel)
    (ycte2 : ℚ) (size row0 col0 : ℤ) :
    fkCBFycte22 env kt kr p1 p2 ycte2 size row0 col0 =
      fkCBFycte22 env kt kr p1' p2 ycte2 size row0 col0 := rfl

/-- Claim C8: the three returned parallel sequences have length exactly
`3*m1*n1*m1*n1` for `fkCBFxcte11`, `3*m2*n2*m2*n2` for `fkCBFycte22` and
`4*m1*n1*m2*n2` for `fkCBFxycte12`. -/
theorem claim_C8 (env : BardellEnv) (kt kr : ℚ) (p1 p2 : Panel)
    (xcte1 ycte2 : ℚ) (size row0 col0 : ℤ) :
    ((fkCBFxcte11 env kt kr p1 xcte1 size row0 col0).rows.length = 3*p1.m*p1.n*p1.m*p1.n ∧
     (fkCBFxcte11 env kt kr p1 xcte1 size row0 col0).cols.length = 3*p1.m*p1.n*p1.m*p1.n ∧
     (fkCBFxcte11 env kt kr p1 xcte1 size row0 col0).vals.length = 3*p1.m*p1.n*p1.m*p1.n) ∧
    ((fkCBFycte22 env kt kr p1 p2 ycte2 size row0 col0).rows.length = 3*p2.m*p2.n*p2.m*p2.n ∧
     (fkCBFycte22 env kt kr p1 p2 ycte2 size row0 col0).cols.length = 3*p2.m*p2.n*p2.m*p2.n ∧
     (fkCBFycte22 env kt kr p1 p2 ycte2 size row0 col0).vals.length = 3*p2.m*p2.n*p2.m*p2.n) ∧
    ((fkCBFxycte12 env kt kr p1 p2 xcte1 ycte2 size row0 col0).rows.length = 4*p1.m*p1.n*p2.m*p2.n ∧
     (fkCBFxycte12 env kt kr p1 p2 xcte1 ycte2 size row0 col0).cols.length = 4*p1.m*p1.n*p2.m*p2.n ∧
     (fkCBFxycte12 env kt kr p1 p2 xcte1 ycte2 size row0 col0).vals.length = 4*p1.m*p1.n*p2.m*p2.n) := by
  refine ⟨mkCoo_lengths _ _ _ (xcte11_entries_length_le env kt kr p1 xcte1 row0 col0),
    mkCoo_lengths _ _ _ (ycte22_entries_length_le env kt kr p2 ycte2 row0 col0),
    mkCoo_lengths _ _ _ (le_of_eq (xycte12_entries_length env kt kr p1 p2 xcte1 ycte2 row0 col0))⟩

/-- Claim C7: `fkCBFycte22` is the exact y-axis dual of `fkCBFxcte11`:
its written entries coincide with those of the single-edge algorithm of
section 4.1 applied to panel 2 with the two axes exchanged and the row/col
packing left unchanged. -/
theorem claim_C7 (env : BardellEnv) (kt kr : ℚ) (p2 : Panel)
    (ycte2 : ℚ) (row0 col0 : ℤ) :
    fkCBFycte22_entries env kt kr p2 ycte2 row0 col0 =
      fkCBFycte22_specDual env kt kr p2 ycte2 row0 col0 := by
  simp only [fkCBFycte22_entries, fkCBFycte22_specDual, Panel.swapAxes]
  refine flatMap_congr_mem fun x1 _ => ?_
  refine flatMap_congr_mem fun x2 _ => ?_
  refine flatMap_congr_mem fun x3 _ => ?_
  refine flatMap_congr_mem fun x4 _ => ?_
  split_ifs
  · rfl
  · simp only [List.cons.injEq, Prod.mk.injEq, true_and, and_true]
    exact ⟨by ring, by ring, by ring⟩

/-- Claim C6: in all three procedures every written row index is
`row0 + 3*(j*m + i) + d` and every written column index is
`col0 + 3*(l*m + k) + e` for in-range basis indices and a degree-of-freedom
offset below 3, each panel using its own `m`. -/
theorem claim_C6 (env : BardellEnv) (kt kr : ℚ) (p1 p2 : Panel)
    (xcte1 ycte2 : ℚ) (row0 col0 : ℤ) :
    (∀ t ∈ fkCBFxcte11_entries env kt kr p1 xcte1 row0 col0,
      ∃ i j k l d : ℕ, i < p1.m ∧ j < p1.n ∧ k < p1.m ∧ l < p1.n ∧ d < 3 ∧
        t.1 = row0 + 3*((j*p1.m + i : ℕ) : ℤ) + (d : ℤ) ∧
        t.2.1 = col0 + 3*((l*p1.m + k : ℕ) : ℤ) + (d : ℤ)) ∧
    (∀ t ∈ fkCBFxycte12_entries env kt kr p1 p2 xcte1 ycte2 row0 col0,
      ∃ i j k l d e : ℕ, i < p1.m ∧ j < p1.n ∧ k < p2.m ∧ l < p2.n ∧ d < 3 ∧ e < 3 ∧
        t.1 = row0 + 3*((j*p1.m + i : ℕ) : ℤ) + (d : ℤ) ∧
        t.2.1 = col0 + 3*((l*p2.m + k : ℕ) : ℤ) + (e : ℤ)) ∧
    (∀ t ∈ fkCBFycte22_entries env kt kr p2 ycte2 row0 col0,
      ∃ i j k l d : ℕ, i < p2.m ∧ j < p2.n ∧ k < p2.m ∧ l < p2.n ∧ d < 3 ∧
        t.1 = row0 + 3*((j*p2.m + i : ℕ) : ℤ) + (d : ℤ) ∧
        t.2.1 = col0 + 3*((l*p2.m + k : ℕ) : ℤ) + (d : ℤ)) := by
  refine ⟨fun t ht => ?_, fun t ht => ?_, fun t ht => ?_⟩
  · obtain ⟨i, j, k, l, d, hi, hj, hk, hl, hd, hr, hc, _⟩ :=
      xcte11_shape env kt kr p1 xcte1 row0 col0 ht
    exact ⟨i, j, k, l, d, hi, hj, hk, hl, hd, hr, hc⟩
  · obtain ⟨i, j, k, l, d, e, hi, hj, hk, hl, hde, hr, hc⟩ :=
      xycte12_shape env kt kr p1 p2 xcte1 ycte2 row0 col0 ht
    refine ⟨i, j, k, l, d, e, hi, hj, hk, hl, ?_, ?_, hr, hc⟩ <;>
      rcases hde with h | h | h | h <;> simp_all
  · obtain ⟨i, j, k, l, d, hi, hj, hk, hl, hd, hr, hc, _⟩ :=
      ycte22_shape env kt kr p2 ycte2 row0 col0 ht
    exact ⟨i, j, k, l, d, hi, hj, hk, hl, hd, hr, hc⟩

/-- Claim C6 witness: the concrete first entry of the unit configuration
satisfies the packing decomposition. -/
theorem claim_C6_witness :
    (((0 : ℤ), (0 : ℤ), (1/2 : ℚ)) ∈ fkCBFxcte11_entries envOne 1 1 panelA 0 0 0) ∧
    (∃ i j k l d : ℕ, i < panelA.m ∧ j < panelA.n ∧ k < panelA.m ∧ l < panelA.n ∧ d < 3 ∧
      ((0 : ℤ), (0 : ℤ), (1/2 : ℚ)).1 = 0 + 3*((j*panelA.m + i : ℕ) : ℤ) + (d : ℤ) ∧
      ((0 : ℤ), (0 : ℤ), (1/2 : ℚ)).2.1 = 0 + 3*((l*panelA.m + k : ℕ) : ℤ) + (d : ℤ)) := by
  have hm : (((0 : ℤ), (0 : ℤ), (1/2 : ℚ)) ∈ fkCBFxcte11_entries envOne 1 1 panelA 0 0 0) := by
    norm_num [fkCBFxcte11_entries, envOne, panelA, List.range_succ]
  exact ⟨hm, (claim_C6 envOne 1 1 panelA panelA 0 0 0 0).1 _ hm⟩

/-- Claim C5, amended: every WRITTEN entry of the three procedures lies in
the designated block: `row0 ≤ row < row0 + 3*m*n` and
`col0 ≤ col < col0 + 3*m*n` with each panel's own `m`, `n`.  (The returned
arrays of the single-edge procedures additionally hold untouched all-zero
padding slots at position `(0, 0)`, which fall outside the block whenever
`row0 > 0` or `col0 > 0`; see the counterexample.) -/
theorem claim_C5 (env : BardellEnv) (kt kr : ℚ) (p1 p2 : Panel)
    (xcte1 ycte2 : ℚ) (row0 col0 : ℤ) :
    (∀ t ∈ fkCBFxcte11_entries env kt kr p1 xcte1 row0 col0,
      row0 ≤ t.1 ∧ t.1 < row0 + 3*((p1.m*p1.n : ℕ) : ℤ) ∧
      col0 ≤ t.2.1 ∧ t.2.1 < col0 + 3*((p1.m*p1.n : ℕ) : ℤ)) ∧
    (∀ t ∈ fkCBFycte22_entries env kt kr p2 ycte2 row0 col0,
      row0 ≤ t.1 ∧ t.1 < row0 + 3*((p2.m*p2.n : ℕ) : ℤ) ∧
      col0 ≤ t.2.1 ∧ t.2.1 < col0 + 3*((p2.m*p2.n : ℕ) : ℤ)) ∧
    (∀ t ∈ fkCBFxycte12_entries env kt kr p1 p2 xcte1 ycte2 row0 col0,
      row0 ≤ t.1 ∧ t.1 < row0 + 3*((p1.m*p1.n : ℕ) : ℤ) ∧
      col0 ≤ t.2.1 ∧ t.2.1 < col0 + 3*((p2.m*p2.n : ℕ) : ℤ)) := by
  refine ⟨fun t ht => ?_, fun t ht => ?_, fun t ht => ?_⟩
  · obtain ⟨i, j, k, l, d, hi, hj, hk, hl, hd, hr, hc, _⟩ :=
      xcte11_shape env kt kr p1 xcte1 row0 col0 ht
    have h1 : ((j*p1.m + i : ℕ) : ℤ) < ((p1.m*p1.n : ℕ) : ℤ) := by
      exact_mod_cast (Nat.mul_comm p1.n p1.m ▸ idx_lt hi hj)
    have h2 : ((l*p1.m + k : ℕ) : ℤ) < ((p1.m*p1.n : ℕ) : ℤ) := by
      exact_mod_cast (Nat.mul_comm p1.n p1.m ▸ idx_lt hk hl)
    have h3 : (0 : ℤ) ≤ ((j*p1.m + i : ℕ) : ℤ) := Int.natCast_nonneg _
    have h4 : (0 : ℤ) ≤ ((l*p1.m + k : ℕ) : ℤ) := Int.natCast_nonneg _
    omega
  · obtain ⟨i, j, k, l, d, hi, hj, hk, hl, hd, hr, hc, _⟩ :=
      ycte22_shape env kt kr p2 ycte2 row0 col0 ht
    have h1 : ((j*p2.m + i : ℕ) : ℤ) < ((p2.m*p2.n : ℕ) : ℤ) := by
      exact_mod_cast (Nat.mul_comm p2.n p2.m ▸ idx_lt hi hj)
    have h2 : ((l*p2.m + k : ℕ) : ℤ) < ((p2.m*p2.n : ℕ) : ℤ) := by
      exact_mod_cast (Nat.mul_comm p2.n p2.m ▸ idx_lt hk hl)
    have h3 : (0 : ℤ) ≤ ((j*p2.m + i : ℕ) : ℤ) := Int.natCast_nonneg _
    have h4 : (0 : ℤ) ≤ ((l*p2.m + k : ℕ) : ℤ) := Int.natCast_nonneg _
    omega
  · obtain ⟨i, j, k, l, d, e, hi, hj, hk, hl, hde, hr, hc⟩ :=
      xycte12_shape env kt kr p1 p2 xcte1 ycte2 row0 col0 ht
    have hd3 : d < 3 ∧ e < 3 := by
      rcases hde with h | h | h | h <;> simp_all
    have h1 : ((j*p1.m + i : ℕ) : ℤ) < ((p1.m*p1.n : ℕ) : ℤ) := by
      exact_mod_cast (Nat.mul_comm p1.n p1.m ▸ idx_lt hi hj)
    have h2 : ((l*p2.m + k : ℕ) : ℤ) < ((p2.m*p2.n : ℕ) : ℤ) := by
      exact_mod_cast (Nat.mul_comm p2.n p2.m ▸ idx_lt hk hl)
    have h3 : (0 : ℤ) ≤ ((j*p1.m + i : ℕ) : ℤ) := Int.natCast_nonneg _
    have h4 : (0 : ℤ) ≤ ((l*p2.m + k : ℕ) : ℤ) := Int.natCast_nonneg _
    omega

/-- Claim C5 witness: the bounds hold for the concrete first entry of the
unit configuration. -/
theorem claim_C5_witness :
    (((0 : ℤ), (0 : ℤ), (1/2 : ℚ)) ∈ fkCBFxcte11_entries envOne 1 1 panelA 0 0 0) ∧
    (0 ≤ ((0 : ℤ), (0 : ℤ), (1/2 : ℚ)).1 ∧
      ((0 : ℤ), (0 : ℤ), (1/2 : ℚ)).1 < 0 + 3*((panelA.m*panelA.n : ℕ) : ℤ) ∧
      0 ≤ ((0 : ℤ), (0 : ℤ), (1/2 : ℚ)).2.1 ∧
      ((0 : ℤ), (0 : ℤ), (1/2 : ℚ)).2.1 < 0 + 3*((panelA.m*panelA.n : ℕ) : ℤ)) := by
  have hm : (((0 : ℤ), (0 : ℤ), (1/2 : ℚ)) ∈ fkCBFxcte11_entries envOne 1 1 panelA 0 0 0) := by
    norm_num [fkCBFxcte11_entries, envOne, panelA, List.range_succ]
  exact ⟨hm, (claim_C5 envOne 1 1 panelA panelA 0 0 0 0).1 _ hm⟩

/-- Claim C5 counterexample: with `m = 1`, `n = 2`, `row0 = col0 = 3`,
`size = 12`, the RETURNED coordinate lists of `fkCBFxcte11` contain the
pair `(0, 0)` (an untouched padding slot), which violates
`row0 ≤ row` and `col0 ≤ col`; so the claim is false of the returned
coordinate lists as a whole. -/
theorem claim_C5_cex :
    ((0 : ℤ), (0 : ℤ)) ∈
      ((fkCBFxcte11 envOne 1 1 panelB 0 12 3 3).rows.zip
        (fkCBFxcte11 envOne 1 1 panelB 0 12 3 3).cols) ∧
    ¬ ((3 : ℤ) ≤ 0) := by
  constructor
  · decide
  · decide

/-- Claim C4: the single-edge procedures write entries only in the upper
triangle (`row ≤ col`), and the value formulas are symmetric: the value
the same formulas produce for the transposed combination (which sits at
`(col, row)`) equals the value emitted at `(row, col)`.  The `integral_ff`
primitive is assumed symmetric in its two indices when both basis functions
carry the same boundary coefficients, which holds for the mathematical
integral it implements. -/
theorem claim_C4 (env : BardellEnv) (kt kr : ℚ) (p1 p2 : Panel)
    (xcte1 ycte2 : ℚ) (row0 col0 : ℤ)
    (hsym : ∀ (i j : ℕ) (c1 c2 c3 c4 : ℚ),
      env.integral_ff i j c1 c2 c3 c4 c1 c2 c3 c4 =
        env.integral_ff j i c1 c2 c3 c4 c1 c2 c3 c4) :
    (∀ t ∈ fkCBFxcte11_entries env kt kr p1 xcte1 row0 col0, t.1 ≤ t.2.1) ∧
    (∀ t ∈ fkCBFycte22_entries env kt kr p2 ycte2 row0 col0, t.1 ≤ t.2.1) ∧
    (∀ d i j k l : ℕ, xcte11_val env kt kr p1 xcte1 d k l i j =
      xcte11_val env kt kr p1 xcte1 d i j k l) ∧
    (∀ d i j k l : ℕ, ycte22_val env kt kr p2 ycte2 d k l i j =
      ycte22_val env kt kr p2 ycte2 d i j k l) := by
  refine ⟨fun t ht => ?_, fun t ht => ?_, fun d i j k l => ?_, fun d i j k l => ?_⟩
  · obtain ⟨_, _, _, _, _, _, _, _, _, _, _, _, hle⟩ :=
      xcte11_shape env kt kr p1 xcte1 row0 col0 ht
    exact hle
  · obtain ⟨_, _, _, _, _, _, _, _, _, _, _, _, hle⟩ :=
      ycte22_shape env kt kr p2 ycte2 row0 col0 ht
    exact hle
  · rcases d with _ | _ | d <;> simp only [xcte11_val] <;>
      rw [hsym l j] <;> ring
  · rcases d with _ | _ | d <;> simp only [ycte22_val] <;>
      rw [hsym k i] <;> ring

/-- Claim C4 witness: instantiation at the unit configuration, where the
symmetry assumption on `integral_ff` holds definitionally. -/
theorem claim_C4_witness :
    (∀ t ∈ fkCBFxcte11_entries envOne 1 1 panelA 0 0 0, t.1 ≤ t.2.1) ∧
    (∀ t ∈ fkCBFycte22_entries envOne 1 1 panelA 0 0 0, t.1 ≤ t.2.1) ∧
    (∀ d i j k l : ℕ, xcte11_val envOne 1 1 panelA 0 d k l i j =
      xcte11_val envOne 1 1 panelA 0 d i j k l) ∧
    (∀ d i j k l : ℕ, ycte22_val envOne 1 1 panelA 0 d k l i j =
      ycte22_val envOne 1 1 panelA 0 d i j k l) :=
  claim_C4 envOne 1 1 panelA panelA 0 0 0 0 fun _ _ _ _ _ _ => rfl

/-- Claim C3: for every emitted combination of `fkCBFxcte11` (in-range
indices whose packed position survives the upper-triangle guard), the
written `w`-`w` diagonal entry at `(row+2, col+2)` carries the value
`0.5*b*kt*(f_w*g_w + 4*fxi_w*gxi_w*kr/(a^2*kt))` where the rotational
term uses the xi-derivatives of the `w` basis at `xicte1` and is scaled
by `1/a^2`. -/
theorem claim_C3 (env : BardellEnv) (kt kr : ℚ) (p1 : Panel)
    (xcte1 : ℚ) (row0 col0 : ℤ) (i1 j1 k1 l1 : ℕ)
    (hi : i1 < p1.m) (hj : j1 < p1.n) (hk : k1 < p1.m) (hl : l1 < p1.n)
    (hrc : row0 + 3*((j1*p1.m + i1 : ℕ) : ℤ) ≤ col0 + 3*((l1*p1.m + k1 : ℕ) : ℤ)) :
    (row0 + 3*((j1*p1.m + i1 : ℕ) : ℤ) + 2, col0 + 3*((l1*p1.m + k1 : ℕ) : ℤ) + 2,
      (1/2)*p1.b*kt *
        ((env.calc_f i1 (2*xcte1/p1.a - 1) p1.w1tx p1.w1rx p1.w2tx p1.w2rx)
            * (env.calc_f k1 (2*xcte1/p1.a - 1) p1.w1tx p1.w1rx p1.w2tx p1.w2rx)
            * (env.integral_ff j1 l1 p1.w1ty p1.w1ry p1.w2ty p1.w2ry p1.w1ty p1.w1ry p1.w2ty p1.w2ry)
          + 4*(env.calc_fxi i1 (2*xcte1/p1.a - 1) p1.w1tx p1.w1rx p1.w2tx p1.w2rx)
            * (env.calc_fxi k1 (2*xcte1/p1.a - 1) p1.w1tx p1.w1rx p1.w2tx p1.w2rx)
            * (env.integral_ff j1 l1 p1.w1ty p1.w1ry p1.w2ty p1.w2ry p1.w1ty p1.w1ry p1.w2ty p1.w2ry)
            * kr/(p1.a^2*kt)))
      ∈ fkCBFxcte11_entries env kt kr p1 xcte1 row0 col0 := by
  simp only [fkCBFxcte11_entries, num, List.mem_flatMap, List.mem_range]
  refine ⟨j1, hj, l1, hl, i1, hi, k1, hk, ?_⟩
  rw [if_neg (by omega)]
  have hv : (1/2)*p1.b*kt *
        ((env.calc_f i1 (2*xcte1/p1.a - 1) p1.w1tx p1.w1rx p1.w2tx p1.w2rx)
            * (env.calc_f k1 (2*xcte1/p1.a - 1) p1.w1tx p1.w1rx p1.w2tx p1.w2rx)
            * (env.integral_ff j1 l1 p1.w1ty p1.w1ry p1.w2ty p1.w2ry p1.w1ty p1.w1ry p1.w2ty p1.w2ry)
          + 4*(env.calc_fxi i1 (2*xcte1/p1.a - 1) p1.w1tx p1.w1rx p1.w2tx p1.w2rx)
            * (env.calc_fxi k1 (2*xcte1/p1.a - 1) p1.w1tx p1.w1rx p1.w2tx p1.w2rx)
            * (env.integral_ff j1 l1 p1.w1ty p1.w1ry p1.w2ty p1.w2ry p1.w1ty p1.w1ry p1.w2ty p1.w2ry)
            * kr/(p1.a^2*kt)) =
      (1/2)*p1.b*kt *
        ((env.calc_f i1 (2*xcte1/p1.a - 1) p1.w1tx p1.w1rx p1.w2tx p1.w2rx)
            * (env.calc_f k1 (2*xcte1/p1.a - 1) p1.w1tx p1.w1rx p1.w2tx p1.w2rx)
            * (env.integral_ff j1 l1 p1.w1ty p1.w1ry p1.w2ty p1.w2ry p1.w1ty p1.w1ry p1.w2ty p1.w2ry)
          + 4*(env.calc_fxi i1 (2*xcte1/p1.a - 1) p1.w1tx p1.w1rx p1.w2tx p1.w2rx)
            * (env.calc_fxi k1 (2*xcte1/p1.a - 1) p1.w1tx p1.w1rx p1.w2tx p1.w2rx)
            * (env.integral_ff j1 l1 p1.w1ty p1.w1ry p1.w2ty p1.w2ry p1.w1ty p1.w1ry p1.w2ty p1.w2ry)
            * kr/((p1.a*p1.a)*kt)) := by
    ring
  rw [hv]
  simp

/-- Claim C3 witness: the `w`-`w` entry membership at the unit
configuration with `i1 = j1 = k1 = l1 = 0`. -/
theorem claim_C3_witness :
    ((0 : ℤ) + 3*((0*panelA.m + 0 : ℕ) : ℤ) + 2,
     (0 : ℤ) + 3*((0*panelA.m + 0 : ℕ) : ℤ) + 2,
     (1/2)*panelA.b*1 *
        ((envOne.calc_f 0 (2*0/panelA.a - 1) panelA.w1tx panelA.w1rx panelA.w2tx panelA.w2rx)
            * (envOne.calc_f 0 (2*0/panelA.a - 1) panelA.w1tx panelA.w1rx panelA.w2tx panelA.w2rx)
            * (envOne.integral_ff 0 0 panelA.w1ty panelA.w1ry panelA.w2ty panelA.w2ry panelA.w1ty panelA.w1ry panelA.w2ty panelA.w2ry)
          + 4*(envOne.calc_fxi 0 (2*0/panelA.a - 1) panelA.w1tx panelA.w1rx panelA.w2tx panelA.w2rx)
            * (envOne.calc_fxi 0 (2*0/panelA.a - 1) panelA.w1tx panelA.w1rx panelA.w2tx panelA.w2rx)
            * (envOne.integral_ff 0 0 panelA.w1ty panelA.w1ry panelA.w2ty panelA.w2ry panelA.w1ty panelA.w1ry panelA.w2ty panelA.w2ry)
            * 1/(panelA.a^2*1)))
      ∈ fkCBFxcte11_entries envOne 1 1 panelA 0 0 0 :=
  claim_C3 envOne 1 1 panelA 0 0 0 0 0 0 0
    (by decide) (by decide) (by decide) (by decide) (by decide)

/-- Claim C9, amended: under the preconditions `a > 0` (resp. `b > 0`) and
`kt ≠ 0`, every division performed by `fkCBFxcte11` and `fkCBFycte22` has a
nonzero denominator, so the guarded-division embedding never reaches its
error branch and returns exactly the written entries.  (`kt = 0` alone —
with any `kr`, including `kr = 0` — already sends the rotational-term
division through a zero denominator; see the counterexample.) -/
theorem claim_C9 (env : BardellEnv) (kt kr : ℚ) (p1 p2 : Panel)
    (xcte1 ycte2 : ℚ) (row0 col0 : ℤ)
    (ha : 0 < p1.a) (hb : 0 < p2.b) (hkt : kt ≠ 0) :
    fkCBFxcte11_checked env kt kr p1 xcte1 row0 col0 =
      some (fkCBFxcte11_entries env kt kr p1 xcte1 row0 col0) ∧
    fkCBFycte22_checked env kt kr p2 ycte2 row0 col0 =
      some (fkCBFycte22_entries env kt kr p2 ycte2 row0 col0) := by
  have ha' : p1.a ≠ 0 := ne_of_gt ha
  have hb' : p2.b ≠ 0 := ne_of_gt hb
  have hda : (p1.a*p1.a)*kt ≠ 0 := mul_ne_zero (mul_ne_zero ha' ha') hkt
  have hdb : (p2.b*p2.b)*kt ≠ 0 := mul_ne_zero (mul_ne_zero hb' hb') hkt
  constructor
  · simp only [fkCBFxcte11_checked, divGuard]
    rw [if_neg ha', Option.some_bind,
      ← optList_map_some (fkCBFxcte11_entries env kt kr p1 xcte1 row0 col0)]
    congr 1
    simp only [fkCBFxcte11_entries, List.map_flatMap]
    refine flatMap_congr_mem fun x1 _ => ?_
    refine flatMap_congr_mem fun x2 _ => ?_
    refine flatMap_congr_mem fun x3 _ => ?_
    refine flatMap_congr_mem fun x4 _ => ?_
    rw [if_neg hda]
    split_ifs
    · rfl
    · rfl
  · simp only [fkCBFycte22_checked, divGuard]
    rw [if_neg hb', Option.some_bind,
      ← optList_map_some (fkCBFycte22_entries env kt kr p2 ycte2 row0 col0)]
    congr 1
    simp only [fkCBFycte22_entries, List.map_flatMap]
    refine flatMap_congr_mem fun x1 _ => ?_
    refine flatMap_congr_mem fun x2 _ => ?_
    refine flatMap_congr_mem fun x3 _ => ?_
    refine flatMap_congr_mem fun x4 _ => ?_
    rw [if_neg hdb]
    split_ifs
    · rfl
    · rfl

/-- Claim C9 witness: at the unit configuration (`a = b = 1`, `kt = 1`)
both guarded embeddings succeed. -/
theorem claim_C9_witness :
    fkCBFxcte11_checked envOne 1 1 panelA 0 0 0 =
      some (fkCBFxcte11_entries envOne 1 1 panelA 0 0 0) ∧
    fkCBFycte22_checked envOne 1 1 panelA 0 0 0 =
      some (fkCBFycte22_entries envOne 1 1 panelA 0 0 0) :=
  claim_C9 envOne 1 1 panelA panelA 0 0 0 0 one_pos one_pos one_ne_zero

/-- Claim C9 counterexample: with `a = b = 1 > 0` and `kt = 0` TOGETHER
WITH `kr = 0` — a combination the claim asserts cannot produce a division
by zero, since it is neither `kt = 0 ∧ kr ≠ 0` nor any other listed
precondition violation — the guarded embedding of `fkCBFxcte11` still
reaches its error branch: the rotational term divides by
`(a*a)*kt = 0`. -/
theorem claim_C9_cex :
    fkCBFxcte11_checked envOne 0 0 panelA 0 0 0 = none ∧
    (0 : ℚ) < panelA.a ∧ (0 : ℚ) < panelA.b := by
  refine ⟨?_, one_pos, one_pos⟩
  norm_num [fkCBFxcte11_checked, divGuard, envOne, panelA, optList, List.range_succ]

/-- Claim C1: evaluation of the cross-coupling procedure at
`m1 = n1 = m2 = n2 = 1`.  Exactly four entries are emitted, but at the
offset pairs `(0,0), (1,2), (2,1), (2,2)` — NOT at the pairs
`(0,2), (1,0), (2,1), (2,2)` that the coupling pattern
(u,w), (v,u), (w,v), (w,w) of the integrand fields dictates: the first
two entries carry u1-w2 and v1-u2 integrand values yet are written into
the u2 and w2 columns respectively. -/
theorem claim_C1_eval :
    ((fkCBFxycte12_entries envOne 1 1 panelA panelA 0 0 0 0).map fun t => (t.1, t.2.1)) =
      [((0 : ℤ), (0 : ℤ)), (1, 2), (2, 1), (2, 2)] ∧
    ((0 : ℤ), (2 : ℤ)) ∉
      ((fkCBFxycte12_entries envOne 1 1 panelA panelA 0 0 0 0).map fun t => (t.1, t.2.1)) ∧
    ((1 : ℤ), (0 : ℤ)) ∉
      ((fkCBFxycte12_entries envOne 1 1 panelA panelA 0 0 0 0).map fun t => (t.1, t.2.1)) := by
  refine ⟨by decide, by decide, by decide⟩

/-- Claim C2, amended: per combination the four values carry the signs
`-`, `-`, `+`, `-` in emission order (the u-w, v-u, w-v, w-w integrand
pairings); the first three use the prefactor `0.25*b1*a2` (not `0.5*b1*a2`)
and the final rotational term is `-1*b1*a2*(...)*kr/(a1*b2)` — it is NOT of
opposite sign to all three preceding terms (the third is positive). -/
theorem claim_C2 (env : BardellEnv) (kt kr : ℚ) (p1 p2 : Panel)
    (xcte1 ycte2 : ℚ) (row0 col0 : ℤ) :
    fkCBFxycte12_entries env kt kr p1 p2 xcte1 ycte2 row0 col0 =
      (List.range p1.n).flatMap fun j1 =>
        (List.range p2.m).flatMap fun k2 =>
          (List.range p1.m).flatMap fun i1 =>
            (List.range p2.n).flatMap fun l2 =>
              let row := row0 + 3*((j1*p1.m + i1 : ℕ) : ℤ)
              let col := col0 + 3*((l2*p2.m + k2 : ℕ) : ℤ)
              let xicte1 := 2*xcte1/p1.a - 1
              let etacte2 := 2*ycte2/p2.b - 1
              [(row, col,
                 -((1/4)*p1.b*p2.a
                   * (env.integral_ff j1 k2 p1.u1ty p1.u1ry p1.u2ty p1.u2ry p2.w1tx p2.w1rx p2.w2tx p2.w2rx)
                   * (env.calc_f i1 xicte1 p1.u1tx p1.u1rx p1.u2tx p1.u2rx)
                   * (env.calc_f l2 etacte2 p2.w1ty p2.w1ry p2.w2ty p2.w2ry)*kt)),
               (row+1, col+2,
                 -((1/4)*p1.b*p2.a
                   * (env.integral_ff j1 k2 p1.v1ty p1.v1ry p1.v2ty p1.v2ry p2.u1tx p2.u1rx p2.u2tx p2.u2rx)
                   * (env.calc_f i1 xicte1 p1.v1tx p1.v1rx p1.v2tx p1.v2rx)
                   * (env.calc_f l2 etacte2 p2.u1ty p2.u1ry p2.u2ty p2.u2ry)*kt)),
               (row+2, col+1,
                 (1/4)*p1.b*p2.a
                   * (env.integral_ff j1 k2 p1.w1ty p1.w1ry p1.w2ty p1.w2ry p2.v1tx p2.v1rx p2.v2tx p2.v2rx)
                   * (env.calc_f i1 xicte1 p1.w1tx p1.w1rx p1.w2tx p1.w2rx)
                   * (env.calc_f l2 etacte2 p2.v1ty p2.v1ry p2.v2ty p2.v2ry)*kt),
               (row+2, col+2,
                 -(p1.b*p2.a
                   * (env.integral_ff j1 k2 p1.w1ty p1.w1ry p1.w2ty p1.w2ry p2.w1tx p2.w1rx p2.w2tx p2.w2rx)
                   * (env.calc_fxi i1 xicte1 p1.w1tx p1.w1rx p1.w2tx p1.w2rx)
                   * (env.calc_fxi l2 etacte2 p2.w1ty p2.w1ry p2.w2ty p2.w2ry)
                   * kr/(p1.a*p2.b)))] := by
  simp only [fkCBFxycte12_entries, num]
  refine flatMap_congr_mem fun x1 _ => ?_
  refine flatMap_congr_mem fun x2 _ => ?_
  refine flatMap_congr_mem fun x3 _ => ?_
  refine flatMap_congr_mem fun x4 _ => ?_
  simp only [List.cons.injEq, Prod.mk.injEq, true_and, and_true, add_zero]
  exact ⟨by ring, by ring, by ring⟩

/-- Claim C2 counterexample: at the unit configuration the four emitted
values are `-1/4, -1/4, 1/4, -1`: the sign pattern is `-`, `-`, `+`, `-`
(the claim says `+`, `-`, `-`, `+`), the claimed prefactor `0.5*b1*a2`
would give magnitude `1/2` (actual `1/4`), and the final term is negative
while the third is positive, so it is not of opposite sign to the
preceding terms. -/
theorem claim_C2_cex :
    (fkCBFxycte12_entries envOne 1 1 panelA panelA 0 0 0 0).map (fun t => t.2.2) =
      [-(1/4), -(1/4), 1/4, -1] ∧
    ([-(1/4), -(1/4), 1/4, -1] : List ℚ) ≠ [1/2, -(1/2), -(1/2), 1] ∧
    (-(1/4) : ℚ) < 0 ∧ (0 : ℚ) < 1/4 := by
  refine ⟨?_, by norm_num, by norm_num, by norm_num⟩
  norm_num [fkCBFxycte12_entries, envOne, panelA, List.range_succ]
